import Mathlib

/-!
Shallow embedding of the krs MCP Kubernetes server (`krs/utils/mcp_server.py`)
and of the Anthropic client session (`krs/utils/anthropic_client.py`).

Strings are handled at the character-list level so that Python's
`str.split`, `str.replace`, `str.strip`, `str.lower` and the `in` operator
have direct, provable counterparts.  The Kubernetes API and the language
model are external collaborators; they enter the embedding as explicit
oracle parameters (`Except` results model calls that may raise).
-/

namespace Krs

/-- Model of Python `str.split(sep)` generalised to a character class, at the
character level: `List.splitOnP` keeps empty chunks between adjacent
separators, exactly like `str.split("'")` and like `re.split` before the
callers filter out empty strings. -/
def splitOnPred (p : Char → Bool) (s : String) : List String :=
  (s.data.splitOnP p).map fun l => (⟨l⟩ : String)

/-- Model of Python `str.strip()`: drop whitespace from both ends. -/
def pyStrip (s : String) : String :=
  ⟨((s.data.dropWhile Char.isWhitespace).reverse.dropWhile Char.isWhitespace).reverse⟩

/-- Model of Python `str.lower()` (ASCII-faithful). -/
def lowerStr (s : String) : String :=
  ⟨s.data.map Char.toLower⟩

/-- The scan of Python `str.replace(sep, rep)`, written with a step-count
fuel so that the recursion is structural (hence kernel-reducible): every
step consumes at least one character, so any fuel of at least the length
of the list gives the replace semantics (`replaceListAux_fuel`). -/
def replaceListAux (sep rep : List Char) : Nat → List Char → List Char
  | _, [] => []
  | 0, l => l
  | fuel + 1, c :: rest =>
    if sep ≠ [] ∧ sep.isPrefixOf (c :: rest) then
      rep ++ replaceListAux sep rep fuel ((c :: rest).drop sep.length)
    else
      c :: replaceListAux sep rep fuel rest

/-- Model of Python `str.replace(sep, rep)`: scan left to right, replacing
non-overlapping occurrences of `sep`.  (For `sep = []` Python would splice
`rep` between characters; the only use in the source has `sep = " and "`,
and the `sep ≠ []` guard keeps that degenerate case harmless.)
`replaceList_cons` recovers the scan equation. -/
def replaceList (sep rep : List Char) (l : List Char) : List Char :=
  replaceListAux sep rep l.length l

/-- Model of the Python `in` operator on strings (substring containment). -/
def pyIn (needle hay : String) : Bool :=
  decide (needle.data <:+: hay.data)

/-- Model of Python `str.startswith` (used to state the error-prefix
convention of the tool handlers). -/
def beginsWith (pre s : String) : Bool :=
  pre.data.isPrefixOf s.data

/-- Model of Python `str(list_of_strings)`, e.g. `['a', 'b']`. -/
def pyStrListRepr (names : List String) : String :=
  "[" ++ String.intercalate ", " (names.map fun n => "'" ++ n ++ "'") ++ "]"

/-! ## Data model

Kubernetes objects as seen by the handlers: an existing container exposes an
image and an optional port list (`container.ports` may be `None`), an
existing pod has a name, a status phase and containers; a deployment has an
optional count of available replicas. -/

structure Container where
  name : String
  image : String
  ports : Option (List Nat)
deriving DecidableEq, Repr

structure Pod where
  name : String
  phase : String
  containers : List Container
deriving DecidableEq, Repr

structure Deployment where
  name : String
  available_replicas : Option Nat
deriving DecidableEq, Repr

/-- A container entry of a pod manifest dict built by the server
(`"ports"` may be a missing key). -/
structure ContainerSpec where
  name : String
  image : String
  ports : Option (List Nat)
deriving DecidableEq, Repr

/-- A pod manifest dict as built by `_generate_pod_spec` /
`_fill_missing_pod_info`.  `metadata.name` and `spec.containers` may be
missing keys; the constant `apiVersion`/`kind` fields are omitted. -/
structure PodManifest where
  name : Option String
  containers : Option (List ContainerSpec)
deriving DecidableEq, Repr

/-- `container.ports or []` -/
def containerPortsList (c : Container) : List Nat :=
  c.ports.getD []

/-- All `containerPort` values declared by any container of any pod of the
snapshot (the `used_ports` set of `_generate_unique_port`; list membership
models set membership). -/
def usedPorts (existing_pods : List Pod) : List Nat :=
  existing_pods.flatMap fun pod => pod.containers.flatMap containerPortsList

def listMaxNat (l : List Nat) : Nat := l.foldr max 0

/-- The `while new_port in used_ports: new_port += 1` loop of
`_generate_unique_port`, with an explicit step-count fuel so that the
recursion is structural.  Each successful membership test strictly
increases the counter and no member of `used` exceeds `listMaxNat used`,
so any fuel with `listMaxNat used < p + fuel` reaches a free value;
`firstFreeFrom_eq` recovers the loop equation. -/
def firstFreeFromAux (used : List Nat) : Nat → Nat → Nat
  | 0, p => p
  | fuel + 1, p => if p ∈ used then firstFreeFromAux used fuel (p + 1) else p

def firstFreeFrom (used : List Nat) (p : Nat) : Nat :=
  firstFreeFromAux used (listMaxNat used + 1) p

/-- `_generate_unique_port(existing_pods)` -/
def generate_unique_port (existing_pods : List Pod) : Nat :=
  firstFreeFrom (usedPorts existing_pods) 8080

/-- `_generate_pod_spec(pod_name, existing_pods)` -/
def generate_pod_spec (pod_name : String) (existing_pods : List Pod) : PodManifest :=
  { name := some pod_name
    containers := some [{ name := pod_name, image := "nginx:latest"
                          ports := some [generate_unique_port existing_pods] }] }

/-- `_fill_missing_pod_info(pod, existing_pods)`.  The randomized
`_generate_unique_pod_name` fallback (taken only when `metadata.name` is
missing) is supplied as the oracle argument `freshName`; in `create_pod`
every manifest comes from `_generate_pod_spec`, so the fallback is never
taken there. -/
def fill_missing_pod_info (freshName : String) (pod : PodManifest)
    (existing_pods : List Pod) : PodManifest :=
  let pod := if pod.name.isNone then { pod with name := some freshName } else pod
  match pod.containers with
  | none =>
      { pod with containers := some [{ name := pod.name.getD "", image := "nginx:latest"
                                       ports := some [generate_unique_port existing_pods] }] }
  | some [] =>
      { pod with containers := some [{ name := pod.name.getD "", image := "nginx:latest"
                                       ports := some [generate_unique_port existing_pods] }] }
  | some cs =>
      { pod with containers := some (cs.map fun c =>
          if c.ports.isNone then
            { c with ports := some [generate_unique_port existing_pods] }
          else c) }

/-- `_is_duplicate_pod(new_pod, existing_pods)`.  The Python code indexes
`new_pod["spec"]["containers"][0]` and its `"ports"[0]` unconditionally
(raising if absent); every call site passes a manifest with at least one
container carrying at least one port, so the `getD`/`headD` defaults below
are never the deciding value at a call site. -/
def is_duplicate_pod (new_pod : PodManifest) (existing_pods : List Pod) : Bool :=
  existing_pods.any fun pod =>
    pod.name == new_pod.name.getD "" ||
    pod.containers.any fun container =>
      let new_container := (new_pod.containers.getD []).headD
        { name := "", image := "", ports := none }
      container.image == new_container.image &&
      (containerPortsList container).any
        (· == ((new_container.ports.getD []).headD 0))

/-! ## `create_pod` -/

/-- `[name.strip() for name in names.split(',') if name.strip()]` -/
def parsedCreateNames (names : String) : List String :=
  ((splitOnPred (· == ',') names).map pyStrip).filter (· ≠ "")

/-- A call to `v1.create_namespaced_pod(namespace=…, body=…)`. -/
structure CreateCall where
  ns : String
  manifest : PodManifest
deriving DecidableEq, Repr

/-- Outcome of `create_pod`: the three result groups, the creation calls
issued against the cluster, and the response string.  The concurrent
workers append to `created`/`failed` in a nondeterministic interleaving;
the embedding fixes the submission order (one admissible linearization),
and the theorems below use only interleaving-independent facts
(membership and lengths). -/
structure CreateResult where
  created : List String
  skipped : List String
  failed : List String
  calls : List CreateCall
  response : String
deriving Repr

/-- The per-name loop of `create_pod` (lines 105–114): synthesize a spec,
fill missing info, and route it to `skipped_pods` or to
`processed_pod_manifest`. -/
def routeSpecs (freshName : String) (existing_pods : List Pod) :
    List String → List String × List PodManifest
  | [] => ([], [])
  | pod_name :: rest =>
    let pod_spec := fill_missing_pod_info freshName
      (generate_pod_spec pod_name existing_pods) existing_pods
    let (sk, pr) := routeSpecs freshName existing_pods rest
    if is_duplicate_pod pod_spec existing_pods then
      (pod_spec.name.getD "" :: sk, pr)
    else
      (sk, pod_spec :: pr)

/-- `_create_single_pod` applied to every processed manifest
(`createFail name = some e` models `v1.create_namespaced_pod` raising `e`
for the pod of that name; `none` models success). -/
def runCreates (createFail : String → Option String) :
    List PodManifest → List String × List String
  | [] => ([], [])
  | pod :: rest =>
    let pod_name := pod.name.getD ""
    let (cr, fl) := runCreates createFail rest
    match createFail pod_name with
    | none => (pod_name :: cr, fl)
    | some e => (cr, (pod_name ++ " (" ++ e ++ ")") :: fl)

/-- The response assembly of `create_pod` (lines 122–130). -/
def createResponse (created skipped failed : List String) : String :=
  String.intercalate "\n"
    ((if created ≠ [] then ["Created pods: " ++ String.intercalate ", " created] else []) ++
     (if skipped ≠ [] then ["Skipped existing pods: " ++ String.intercalate ", " skipped] else []) ++
     (if failed ≠ [] then ["Failed to create: " ++ String.intercalate ", " failed] else []))

/-- `create_pod(names, namespace)`.  `list_namespaced_pod` is the cluster
listing oracle; an `.error` models the listing call raising — `create_pod`
has no `try`/`except`, so that exception escapes the handler (the
`.error` result).  Note that `_create_single_pod` commits every creation
to the literal namespace `"default"` (line 222), not to `ns`. -/
def create_pod (createFail : String → Option String) (freshName : String)
    (list_namespaced_pod : String → Except String (List Pod))
    (names : String) (ns : String) : Except String CreateResult :=
  let pod_names := parsedCreateNames names
  match list_namespaced_pod ns with
  | .error e => .error e
  | .ok existing_pods =>
    let (skipped, processed) := routeSpecs freshName existing_pods pod_names
    let (created, failed) := runCreates createFail processed
    .ok { created := created, skipped := skipped, failed := failed
          calls := processed.map fun p => { ns := "default", manifest := p }
          response := createResponse created skipped failed }

/-! ## `delete_pod` -/

/-- The best qualifying match kept by `difflib`'s `heapq.nlargest(1, …)`
over `(ratio, name)` pairs: highest ratio wins, ties are broken toward the
lexicographically larger string (Python tuple comparison). -/
def pickBest (ratio : String → String → ℚ) (word : String) : List String → Option String
  | [] => none
  | x :: rest =>
    match pickBest ratio word rest with
    | none => some x
    | some b =>
      if ratio b word < ratio x word ∨ (ratio x word = ratio b word ∧ b < x) then some x
      else some b

/-- Model of `difflib.get_close_matches(word, possibilities, n=1, cutoff)`:
keep the possibilities whose similarity ratio to `word` reaches the
cutoff, and return the best of them, if any.  The similarity measure
(`SequenceMatcher.ratio`, an external library detail) is the oracle
parameter `ratio`; the cascaded `real_quick_ratio`/`quick_ratio` upper
bounds in `difflib` make its filter equivalent to `cutoff ≤ ratio`. -/
def get_close_matches1 (ratio : String → String → ℚ) (cutoff : ℚ)
    (word : String) (possibilities : List String) : Option String :=
  pickBest ratio word (possibilities.filter fun x => cutoff ≤ ratio x word)

/-- Lines 238–240 of `delete_pod`: replace `" and "` by a comma, split on
runs of spaces/commas, strip, and drop empty entries. -/
def parsedDeleteNames (names : String) : List String :=
  let names_normalized : String := ⟨replaceList " and ".data ",".data names.data⟩
  ((splitOnPred (fun c => c == ' ' || c == ',') names_normalized).map pyStrip).filter (· ≠ "")

/-- The confirmation prompt of line 271. -/
def suggestionLine (incorrect_name suggested_name : String) : String :=
  "Pod '" ++ incorrect_name ++ "' not found. Did you mean '" ++ suggested_name ++
    "'? Reply 'yes' to delete it."

/-- A call to `v1.delete_namespaced_pod(name=…, namespace=…)`. -/
structure DeleteCall where
  name : String
  ns : String
deriving DecidableEq, Repr

structure DeleteResult where
  deleted : List String
  failed : List String
  suggestions : List (String × String)
  calls : List DeleteCall
  response : String
deriving Repr

/-- The per-name loop of `delete_pod` (lines 247–259).  `suggestions` is an
insertion-ordered dict keyed by the requested name: a later occurrence of
the same key only rewrites the (identical) value, which the
`filter (·.1 ≠ pod_name)` on the recursive tail reproduces. -/
def deleteLoop (ratio : String → String → ℚ) (deleteFail : String → Option String)
    (existing_pods : List String) (ns : String) :
    List String → List String × List String × List (String × String) × List DeleteCall
  | [] => ([], [], [], [])
  | pod_name :: rest =>
    let r := deleteLoop ratio deleteFail existing_pods ns rest
    if pod_name ∉ existing_pods then
      match get_close_matches1 ratio (mkRat 3 5) pod_name existing_pods with
      | some s => (r.1, r.2.1, (pod_name, s) :: r.2.2.1.filter (·.1 ≠ pod_name), r.2.2.2)
      | none =>
        match deleteFail pod_name with
        | none => (pod_name :: r.1, r.2.1, r.2.2.1, ⟨pod_name, ns⟩ :: r.2.2.2)
        | some e =>
          (r.1, (pod_name ++ " (" ++ e ++ ")") :: r.2.1, r.2.2.1, ⟨pod_name, ns⟩ :: r.2.2.2)
    else
      match deleteFail pod_name with
      | none => (pod_name :: r.1, r.2.1, r.2.2.1, ⟨pod_name, ns⟩ :: r.2.2.2)
      | some e =>
        (r.1, (pod_name ++ " (" ++ e ++ ")") :: r.2.1, r.2.2.1, ⟨pod_name, ns⟩ :: r.2.2.2)

/-- The response assembly of `delete_pod` (lines 261–274): when any
suggestion exists, the deleted/failed report is discarded and only the
confirmation prompts are returned. -/
def deleteResponse (deleted failed : List String)
    (suggestions : List (String × String)) : String :=
  let response :=
    (if deleted ≠ [] then
        ["Pods deleted successfully: " ++ String.intercalate ", " deleted] else []) ++
    (if failed ≠ [] then
        ["Failed to delete pods: " ++ String.intercalate ", " failed] else [])
  if suggestions ≠ [] then
    String.intercalate "\n" (suggestions.map fun p => suggestionLine p.1 p.2)
  else if response ≠ [] then String.intercalate "\n" response
  else "No pods were deleted."

/-- `delete_pod(names, namespace)`.  The whole body is wrapped in
`try`/`except`, so a raising listing call yields the `"Error: …"` string
rather than escaping.  `deleteFail name = some e` models
`v1.delete_namespaced_pod` raising `e` for that name. -/
def delete_pod (ratio : String → String → ℚ) (deleteFail : String → Option String)
    (list_namespaced_pod : String → Except String (List Pod))
    (names : String) (ns : String) : DeleteResult :=
  match list_namespaced_pod ns with
  | .error e => { deleted := [], failed := [], suggestions := [], calls := []
                  response := "Error: " ++ e }
  | .ok pods =>
    let existing_pods := pods.map Pod.name
    let pod_names := parsedDeleteNames names
    let r := deleteLoop ratio deleteFail existing_pods ns pod_names
    { deleted := r.1, failed := r.2.1, suggestions := r.2.2.1, calls := r.2.2.2
      response := deleteResponse r.1 r.2.1 r.2.2.1 }

/-! ## The remaining tool handlers (`Except.error` models an exception
escaping the handler; every handler below catches, so always returns
`.ok`) -/

/-- `list_pods(namespace)` -/
def list_pods (list_namespaced_pod : String → Except String (List Pod))
    (ns : String) : Except String String :=
  match list_namespaced_pod ns with
  | .error e => .ok ("Error: " ++ e)
  | .ok pods =>
    if pods = [] then .ok "No pods found in the namespace."
    else .ok (String.intercalate "\n" (pods.map fun pod => pod.name ++ " (" ++ pod.phase ++ ")"))

/-- `list_namespaces()` -/
def list_namespaces (list_namespace : Unit → Except String (List String)) :
    Except String String :=
  match list_namespace () with
  | .error e => .ok ("Error: " ++ e)
  | .ok namespaces => .ok (String.intercalate "\n" namespaces)

/-- `list_services(namespace)` -/
def list_services (list_namespaced_service : String → Except String (List String))
    (ns : String) : Except String String :=
  match list_namespaced_service ns with
  | .error e => .ok ("Error: " ++ e)
  | .ok services =>
    if services = [] then .ok "No services found in the namespace."
    else .ok (String.intercalate "\n" services)

/-- `list_deployments(namespace)` -/
def list_deployments (list_namespaced_deployment : String → Except String (List Deployment))
    (ns : String) : Except String String :=
  match list_namespaced_deployment ns with
  | .error e => .ok ("Error: " ++ e)
  | .ok deployments =>
    if deployments = [] then .ok "No deployments found in the namespace."
    else .ok (String.intercalate "\n" (deployments.map Deployment.name))

/-- Outcome of `v1.read_namespaced_pod_log`: a log string, an
`ApiException` with an HTTP status, body and `str(e)` rendering, or any
other exception. -/
inductive LogReadOutcome where
  | logs (text : String)
  | apiError (status : Nat) (body : String) (estr : String)
  | otherError (e : String)
deriving DecidableEq, Repr

/-- `pod_logs(name, namespace)` -/
def pod_logs (read_log : String → String → LogReadOutcome)
    (name : String) (ns : String) : Except String String :=
  match read_log name ns with
  | .logs text =>
    if text = "" then
      .ok ("No logs available for pod '" ++ name ++ "' in namespace '" ++ ns ++ "'.")
    else if pyIn "Error" text then
      .ok ("Error detected in logs: " ++ text)
    else .ok text
  | .apiError status body estr =>
    if status = 400 ∧ pyIn "Bad Request" body then
      .ok ("Error retrieving logs: " ++ body)
    else if status = 404 then
      .ok ("No pod found with the name '" ++ name ++ "' in the namespace '" ++ ns ++ "'.")
    else .ok ("Error retrieving logs: " ++ estr)
  | .otherError e => .ok ("Unexpected error: " ++ e)

/-- `analyze_namespace(namespace)` -/
def analyze_namespace (list_namespaced_pod : String → Except String (List Pod))
    (list_namespaced_deployment : String → Except String (List Deployment))
    (ns : String) : Except String String :=
  match list_namespaced_pod ns with
  | .error e => .ok ("Error analyzing namespace: " ++ e)
  | .ok pods =>
    match list_namespaced_deployment ns with
    | .error e => .ok ("Error analyzing namespace: " ++ e)
    | .ok deployments =>
      let count := fun (ph : String) => ((pods.filter (·.phase = ph)).length)
      let available_replicas :=
        deployments.foldr (fun dep acc => dep.available_replicas.getD 0 + acc) 0
      .ok (String.intercalate "\n"
        ["Namespace Analysis for '" ++ ns ++ "':",
         "- Running Pods: " ++ toString (count "Running"),
         "- Pending Pods: " ++ toString (count "Pending"),
         "- Failed Pods: " ++ toString (count "Failed"),
         "- Unknown State Pods: " ++ toString (count "Unknown"),
         "- Deployments Available: " ++ toString deployments.length,
         "- Deployments with Running Replicas: " ++ toString available_replicas])

/-! ## `anthropic_client.py`: tool dispatch (`process_query`, lines 111–144) -/

/-- Outcome of `self.session.call_tool(chosen_tool, tool_args)` under
`asyncio.wait_for(…, timeout=30)`: a result, a falsy result, a timeout, or
a raised exception. -/
inductive ToolCallOutcome where
  | success (result : String)
  | empty
  | timeout
  | raised (e : String)
deriving DecidableEq, Repr

structure DispatchResult (α : Type) where
  result : String
  invoked : List (String × α)

/-- The dispatch section of `process_query`: reject a tool name absent from
the catalog with an error string; otherwise call the tool with the
arguments and convert every failure of the call (timeout, exception,
missing result) into an `"Error …"` string.  `fmt` is
`self.format_response`; `α` is the opaque type of argument maps.  The
function is total: no outcome propagates an exception to the caller. -/
def dispatch {α : Type} (catalog : List String)
    (call_tool : String → α → ToolCallOutcome) (fmt : String → String → String)
    (chosen_tool : String) (tool_args : α) : DispatchResult α :=
  if chosen_tool ∉ catalog then
    { result := "Error: `" ++ chosen_tool ++ "` is not a valid tool. Available tools: " ++
        pyStrListRepr catalog
      invoked := [] }
  else
    match call_tool chosen_tool tool_args with
    | .success r => { result := fmt chosen_tool r, invoked := [(chosen_tool, tool_args)] }
    | .empty =>
      { result := "Error: MCP did not return a response, but the pod may have been created."
        invoked := [(chosen_tool, tool_args)] }
    | .timeout =>
      { result := "Error: The tool request timed out."
        invoked := [(chosen_tool, tool_args)] }
    | .raised e =>
      { result := "Error calling tool: " ++ e, invoked := [(chosen_tool, tool_args)] }

/-! ## `anthropic_client.py`: interactive session (lines 175–255) -/

/-- The per-session mutable variables of `interactive_session`:
`pending_confirmation` and `pending_action`.  `Idle` is both `none`;
`AwaitingConfirmation` is `pending_confirmation = some name` (the code
only ever sets it together with `pending_action = some "delete_pod"`). -/
structure SessionState where
  pending_confirmation : Option String
  pending_action : Option String
deriving DecidableEq, Repr

/-- Observable outcome of one turn of the `while True` loop: the state
carried to the next turn, the queries handed to `process_query`, the
printed lines, and whether the loop exits (`quit`). -/
structure StepResult where
  state : SessionState
  invoked : List String
  printed : List String
  quit : Bool
deriving DecidableEq, Repr

/-- One turn of `interactive_session`.  `respond` is `process_query`
(tool selection + dispatch, an oracle here) and `aiFix` is
`get_error_resolution_from_ai`.  `response.split("'")[3]` is modelled with
`get? 3`; the `none` case reproduces the `IndexError` being caught by the
turn-level `except`, which prints the error and leaves the state
unchanged. -/
def session_step (respond aiFix : String → String) (st : SessionState)
    (raw : String) : StepResult :=
  let query := lowerStr (pyStrip raw)
  if query = "quit" then
    { state := st, invoked := [], printed := ["\nExiting interactive session. Goodbye!"]
      quit := true }
  else
    match st.pending_confirmation with
    | some pending =>
      if query = "yes" then
        if st.pending_action = some "delete_pod" then
          let resp := respond ("delete_pod name=" ++ pending)
          { state := { pending_confirmation := none, pending_action := none }
            invoked := ["delete_pod name=" ++ pending]
            printed := ["Deleting pod: " ++ pending ++ "...", "\n" ++ resp]
            quit := false }
        else
          { state := st, invoked := []
            printed := ["I'm not sure what you want to confirm. Please specify."]
            quit := false }
      else if query = "no" then
        { state := { pending_confirmation := none, pending_action := none }
          invoked := [], printed := ["Action canceled."], quit := false }
      else
        { state := st, invoked := []
          printed := ["I didn't understand. Do you want to proceed with the deletion? Reply 'yes' or 'no'."]
          quit := false }
    | none =>
      let response := respond query
      if pyIn "Error retrieving logs" response then
        { state := st, invoked := [query]
          printed := [response, "\nAI's step-by-step resolution suggestion:\n" ++ aiFix response]
          quit := false }
      else if pyIn "Did you mean" response && pyIn "Reply 'yes' to delete it" response then
        match (splitOnPred (· == '\'') response).get? 3 with
        | some suggested_pod_name =>
          { state := { pending_confirmation := some suggested_pod_name
                       pending_action := some "delete_pod" }
            invoked := [query], printed := [response], quit := false }
        | none =>
          { state := st, invoked := [query]
            printed := ["\nError: list index out of range"], quit := false }
      else if pyIn "could not determine a valid tool" (lowerStr response) || pyIn "help" query then
        { state := st, invoked := [query]
          printed := ["\nError: AI could not determine a valid action for this query.",
                      "\nHere are some available commands you can use:"]
          quit := false }
      else
        { state := st, invoked := [query], printed := ["\n" ++ response], quit := false }

/-!
# Verification

Helper lemmas, then one theorem per claim (with its witness or
counterexample where required).
-/

theorem le_listMaxNat {l : List Nat} {a : Nat} (h : a ∈ l) : a ≤ listMaxNat l := by
  induction l with
  | nil => cases h
  | cons b t ih =>
    rcases List.mem_cons.mp h with h | h
    · subst h
      exact le_max_left _ _
    · exact le_trans (ih h) (le_max_right _ _)

/-- The fuel of `firstFreeFromAux` is irrelevant once it covers the
distance from `p` to past the largest used value. -/
theorem firstFreeFromAux_fuel (used : List Nat) (f1 : Nat) :
    ∀ f2 p, listMaxNat used < p + f1 → listMaxNat used < p + f2 →
      firstFreeFromAux used f1 p = firstFreeFromAux used f2 p := by
  induction f1 with
  | zero =>
    intro f2 p h1 h2
    have hp : p ∉ used := fun hm => absurd (le_listMaxNat hm) (by omega)
    cases f2 with
    | zero => rfl
    | succ k =>
      show p = firstFreeFromAux used (k + 1) p
      rw [firstFreeFromAux, if_neg hp]
  | succ f1 ih =>
    intro f2 p h1 h2
    cases f2 with
    | zero =>
      have hp : p ∉ used := fun hm => absurd (le_listMaxNat hm) (by omega)
      show firstFreeFromAux used (f1 + 1) p = p
      rw [firstFreeFromAux, if_neg hp]
    | succ k =>
      rw [firstFreeFromAux, firstFreeFromAux]
      by_cases hp : p ∈ used
      · rw [if_pos hp, if_pos hp]
        exact ih k (p + 1) (by omega) (by omega)
      · rw [if_neg hp, if_neg hp]

/-- The fuelled loop satisfies the `while` loop's defining equation. -/
theorem firstFreeFrom_eq (used : List Nat) (p : Nat) :
    firstFreeFrom used p = if p ∈ used then firstFreeFrom used (p + 1) else p := by
  by_cases hmem : p ∈ used
  · rw [if_pos hmem, firstFreeFrom, firstFreeFrom, firstFreeFromAux, if_pos hmem]
    exact firstFreeFromAux_fuel used (listMaxNat used) _ (p + 1) (by omega) (by omega)
  · rw [if_neg hmem, firstFreeFrom, firstFreeFromAux, if_neg hmem]

theorem firstFreeFrom_spec (used : List Nat) (p : Nat) :
    p ≤ firstFreeFrom used p ∧ firstFreeFrom used p ∉ used ∧
      ∀ q, p ≤ q → q ∉ used → firstFreeFrom used p ≤ q := by
  by_cases hmem : p ∈ used
  · obtain ⟨ih1, ih2, ih3⟩ := firstFreeFrom_spec used (p + 1)
    rw [firstFreeFrom_eq, if_pos hmem]
    refine ⟨le_trans (Nat.le_succ p) ih1, ih2, ?_⟩
    intro q hpq hq
    have hne : p ≠ q := by
      intro he
      exact hq (he ▸ hmem)
    exact ih3 q (by omega) hq
  · rw [firstFreeFrom_eq, if_neg hmem]
    exact ⟨le_refl p, hmem, fun q hpq _ => hpq⟩
termination_by listMaxNat used + 1 - p
decreasing_by
  have := le_listMaxNat hmem
  omega

/-- The fuel of `replaceListAux` is irrelevant once it covers the length
of the list. -/
theorem replaceListAux_fuel (sep rep : List Char) :
    ∀ f1 f2 l, l.length ≤ f1 → l.length ≤ f2 →
      replaceListAux sep rep f1 l = replaceListAux sep rep f2 l := by
  intro f1
  induction f1 with
  | zero =>
    intro f2 l h1 _
    have : l = [] := List.eq_nil_of_length_eq_zero (Nat.le_zero.mp h1)
    subst this
    cases f2 <;> rfl
  | succ f1 ih =>
    intro f2 l h1 h2
    cases l with
    | nil => cases f2 <;> rfl
    | cons c rest =>
      cases f2 with
      | zero => simp at h2
      | succ f2 =>
        rw [replaceListAux, replaceListAux]
        by_cases h : sep ≠ [] ∧ sep.isPrefixOf (c :: rest)
        · rw [if_pos h, if_pos h]
          have hsep : 1 ≤ sep.length := List.length_pos.mpr h.1
          have hd : ((c :: rest).drop sep.length).length ≤ f1 := by
            simp only [List.length_drop, List.length_cons]
            simp only [List.length_cons] at h1
            omega
          have hd2 : ((c :: rest).drop sep.length).length ≤ f2 := by
            simp only [List.length_drop, List.length_cons]
            simp only [List.length_cons] at h2
            omega
          rw [ih f2 _ hd hd2]
        · rw [if_neg h, if_neg h]
          simp only [List.length_cons] at h1 h2
          rw [ih f2 rest (by omega) (by omega)]

/-- The scan equation of `replaceList`. -/
theorem replaceList_cons (sep rep : List Char) (c : Char) (rest : List Char) :
    replaceList sep rep (c :: rest) =
      if sep ≠ [] ∧ sep.isPrefixOf (c :: rest) then
        rep ++ replaceList sep rep ((c :: rest).drop sep.length)
      else
        c :: replaceList sep rep rest := by
  show replaceListAux sep rep (rest.length + 1) (c :: rest) = _
  rw [replaceListAux]
  by_cases h : sep ≠ [] ∧ sep.isPrefixOf (c :: rest)
  · rw [if_pos h, if_pos h]
    have hsep : 1 ≤ sep.length := List.length_pos.mpr h.1
    have hd : ((c :: rest).drop sep.length).length ≤ rest.length := by
      simp only [List.length_drop, List.length_cons]
      omega
    exact congrArg (rep ++ ·)
      (replaceListAux_fuel sep rep rest.length _ _ hd (le_refl _))
  · rw [if_neg h, if_neg h]
    rfl

theorem generate_unique_port_not_used (existing_pods : List Pod) :
    generate_unique_port existing_pods ∉ usedPorts existing_pods :=
  (firstFreeFrom_spec (usedPorts existing_pods) 8080).2.1

/-- A port declared by a container of a pod of the snapshot is in
`usedPorts`. -/
theorem mem_usedPorts {existing_pods : List Pod} {pod : Pod} {c : Container} {x : Nat}
    (hp : pod ∈ existing_pods) (hc : c ∈ pod.containers) (hx : x ∈ containerPortsList c) :
    x ∈ usedPorts existing_pods := by
  simp only [usedPorts, List.mem_flatMap]
  exact ⟨pod, hp, c, hc, hx⟩

/-- C5: `_generate_unique_port` returns the smallest integer `≥ 8080` not
among the container ports of the snapshot; on the empty snapshot it
returns `8080`.  (The embedding is a pure function of the snapshot, so the
result is deterministic given the snapshot.) -/
theorem generate_unique_port_correct (existing_pods : List Pod) :
    8080 ≤ generate_unique_port existing_pods ∧
    generate_unique_port existing_pods ∉ usedPorts existing_pods ∧
    (∀ m, 8080 ≤ m → m ∉ usedPorts existing_pods → generate_unique_port existing_pods ≤ m) ∧
    generate_unique_port ([] : List Pod) = 8080 := by
  obtain ⟨h1, h2, h3⟩ := firstFreeFrom_spec (usedPorts existing_pods) 8080
  refine ⟨h1, h2, h3, ?_⟩
  rw [generate_unique_port, firstFreeFrom_eq, if_neg]
  simp [usedPorts]

/-- Witness for C5 on a concrete snapshot: with ports 8080 and 8081 in
use, the generated port is above 8080, unused, and at most 8082. -/
theorem generate_unique_port_correct_witness :
    8080 ≤ generate_unique_port [⟨"p", "Running", [⟨"c", "img", some [8080, 8081]⟩]⟩] ∧
    generate_unique_port [⟨"p", "Running", [⟨"c", "img", some [8080, 8081]⟩]⟩] ≤ 8082 := by
  obtain ⟨h1, _, h3, _⟩ :=
    generate_unique_port_correct [⟨"p", "Running", [⟨"c", "img", some [8080, 8081]⟩]⟩]
  exact ⟨h1, h3 8082 (by decide) (by decide)⟩

/-- On a spec coming out of `_generate_pod_spec`, `_fill_missing_pod_info`
changes nothing: the name, container list and port are already present. -/
theorem fill_missing_generate (freshName pod_name : String) (existing_pods : List Pod) :
    fill_missing_pod_info freshName (generate_pod_spec pod_name existing_pods) existing_pods =
      generate_pod_spec pod_name existing_pods := by
  simp [fill_missing_pod_info, generate_pod_spec]

/-- C2: duplicate detection on a synthesized spec holds exactly for a name
collision or an (image, port) collision with the snapshot; and a
synthesized spec whose name is genuinely new is never a duplicate (its
port is freshly generated, so the (image, port) branch cannot fire). -/
theorem is_duplicate_pod_iff (pod_name : String) (existing_pods : List Pod) :
    (is_duplicate_pod (generate_pod_spec pod_name existing_pods) existing_pods = true ↔
      (∃ pod ∈ existing_pods, pod.name = pod_name) ∨
      (∃ pod ∈ existing_pods, ∃ c ∈ pod.containers, c.image = "nginx:latest" ∧
        generate_unique_port existing_pods ∈ containerPortsList c)) ∧
    ((∀ pod ∈ existing_pods, pod.name ≠ pod_name) →
      is_duplicate_pod (generate_pod_spec pod_name existing_pods) existing_pods = false) := by
  have hiff : is_duplicate_pod (generate_pod_spec pod_name existing_pods) existing_pods = true ↔
      (∃ pod ∈ existing_pods, pod.name = pod_name) ∨
      (∃ pod ∈ existing_pods, ∃ c ∈ pod.containers, c.image = "nginx:latest" ∧
        generate_unique_port existing_pods ∈ containerPortsList c) := by
    simp only [is_duplicate_pod, generate_pod_spec, List.any_eq_true, Bool.or_eq_true,
      beq_iff_eq, Bool.and_eq_true, Option.getD_some, List.headD_cons]
    constructor
    · rintro ⟨pod, hp, h | h⟩
      · exact Or.inl ⟨pod, hp, h⟩
      · obtain ⟨c, hc, him, hport⟩ := h
        refine Or.inr ⟨pod, hp, c, hc, him, ?_⟩
        simpa using hport
    · rintro (⟨pod, hp, h⟩ | ⟨pod, hp, c, hc, him, hport⟩)
      · exact ⟨pod, hp, Or.inl h⟩
      · refine ⟨pod, hp, Or.inr ⟨c, hc, him, ?_⟩⟩
        simpa using hport
  refine ⟨hiff, ?_⟩
  intro hname
  rw [Bool.eq_false_iff, ne_eq, hiff]
  rintro (⟨pod, hp, h⟩ | ⟨pod, hp, c, hc, him, hport⟩)
  · exact hname pod hp h
  · exact generate_unique_port_not_used existing_pods (mem_usedPorts hp hc hport)

/-- Witness for C2 at a populated snapshot and a fresh name. -/
theorem is_duplicate_pod_iff_witness :
    is_duplicate_pod
      (generate_pod_spec "brand-new" [⟨"x", "Running", [⟨"c", "nginx:latest", some [8080]⟩]⟩])
      [⟨"x", "Running", [⟨"c", "nginx:latest", some [8080]⟩]⟩] = false :=
  (is_duplicate_pod_iff "brand-new"
      [⟨"x", "Running", [⟨"c", "nginx:latest", some [8080]⟩]⟩]).2 (by decide)

theorem length_filter_bool {α : Type} (p : α → Bool) (l : List α) :
    (l.filter p).length + (l.filter (fun a => !p a)).length = l.length := by
  induction l with
  | nil => rfl
  | cons a t ih =>
    cases hp : p a <;> simp [List.filter_cons, hp] <;> omega

/-- The routing loop of `create_pod` splits the requested names into the
duplicates (kept by name) and the synthesized manifests of the rest. -/
theorem routeSpecs_eq (freshName : String) (S : List Pod) (l : List String) :
    routeSpecs freshName S l =
      (l.filter (fun n => is_duplicate_pod (generate_pod_spec n S) S),
       (l.filter (fun n => !is_duplicate_pod (generate_pod_spec n S) S)).map
         (fun n => generate_pod_spec n S)) := by
  induction l with
  | nil => rfl
  | cons n rest ih =>
    rw [routeSpecs, fill_missing_generate, ih]
    cases hd : is_duplicate_pod (generate_pod_spec n S) S with
    | true =>
      have hd' := hd
      simp only [generate_pod_spec] at hd'
      simp [List.filter_cons, hd', generate_pod_spec]
    | false =>
      have hd' := hd
      simp only [generate_pod_spec] at hd'
      simp [List.filter_cons, hd', generate_pod_spec]

theorem runCreates_length (createFail : String → Option String) (pr : List PodManifest) :
    (runCreates createFail pr).1.length + (runCreates createFail pr).2.length = pr.length := by
  induction pr with
  | nil => rfl
  | cons pod rest ih =>
    rw [runCreates]
    cases hf : createFail (pod.name.getD "") <;> simp [hf] <;> omega

/-- C1: every requested name of a `create_pod` batch lands in exactly one
of created/skipped/failed — the group sizes sum to the number of requested
names — and a name whose synthesized spec duplicates the snapshot goes to
skipped with no creation call issued for it. -/
theorem create_pod_partition (createFail : String → Option String) (freshName : String)
    (lnp : String → Except String (List Pod)) (names ns : String) (existing : List Pod)
    (hok : lnp ns = .ok existing) :
    ∃ r, create_pod createFail freshName lnp names ns = .ok r ∧
      r.created.length + r.skipped.length + r.failed.length = (parsedCreateNames names).length ∧
      ∀ n ∈ parsedCreateNames names,
        is_duplicate_pod (fill_missing_pod_info freshName (generate_pod_spec n existing) existing)
            existing = true →
          n ∈ r.skipped ∧ ∀ call ∈ r.calls, call.manifest.name ≠ some n := by
  simp only [create_pod, hok]
  refine ⟨_, rfl, ?_, ?_⟩
  · simp only [routeSpecs_eq]
    have h1 := runCreates_length createFail
      (List.map (fun n => generate_pod_spec n existing)
        (List.filter (fun n => !is_duplicate_pod (generate_pod_spec n existing) existing)
          (parsedCreateNames names)))
    have h2 := length_filter_bool
      (fun n => is_duplicate_pod (generate_pod_spec n existing) existing) (parsedCreateNames names)
    simp only [List.length_map] at h1
    omega
  · intro n hn hdup
    rw [fill_missing_generate] at hdup
    constructor
    · simp only [routeSpecs_eq]
      exact List.mem_filter.mpr ⟨hn, hdup⟩
    · intro call hcall
      simp only [routeSpecs_eq, List.map_map, List.mem_map] at hcall
      obtain ⟨m, hm, hcall⟩ := hcall
      subst hcall
      simp only [Function.comp_apply, generate_pod_spec, ne_eq, Option.some.injEq]
      intro he
      subst he
      exact absurd hdup (by simpa using (List.mem_filter.mp hm).2)

/-- Witness for C1: batch "a,b,c" against a snapshot already holding a pod
named "a", with the creation of "b" made to fail: 1 skipped, 1 created,
1 failed, summing to 3, and no creation call for "a". -/
theorem create_pod_partition_witness :
    ∃ r, create_pod (fun n => if n = "b" then some "boom" else none) ""
        (fun _ => .ok [⟨"a", "Running", []⟩]) "a,b,c" "default" = .ok r ∧
      r.created.length + r.skipped.length + r.failed.length = 3 ∧ "a" ∈ r.skipped := by
  obtain ⟨r, hr, hlen, hdup⟩ := create_pod_partition
    (fun n => if n = "b" then some "boom" else none) ""
    (fun _ => .ok [⟨"a", "Running", []⟩]) "a,b,c" "default" [⟨"a", "Running", []⟩] rfl
  refine ⟨r, hr, ?_, (hdup "a" (by decide) (by decide)).1⟩
  rw [hlen]
  decide

/-- C4: the duplicate checks of `create_pod` run against the snapshot
listed from the namespace argument, but every creation call is committed
to namespace "default", whatever the argument was. -/
theorem create_pod_namespace (createFail : String → Option String) (freshName : String)
    (lnp : String → Except String (List Pod)) (names ns : String) (existing : List Pod)
    (hok : lnp ns = .ok existing) :
    ∃ r, create_pod createFail freshName lnp names ns = .ok r ∧
      (∀ call ∈ r.calls, call.ns = "default") ∧
      r.skipped = (parsedCreateNames names).filter
        (fun n => is_duplicate_pod (generate_pod_spec n existing) existing) := by
  simp only [create_pod, hok]
  refine ⟨_, rfl, ?_, ?_⟩
  · intro call hcall
    simp only [List.mem_map] at hcall
    obtain ⟨m, _, hcall⟩ := hcall
    subst hcall
    rfl
  · simp only [routeSpecs_eq]

/-- Witness for C4, at a namespace argument that differs from "default". -/
theorem create_pod_namespace_witness :
    ∃ r, create_pod (fun _ => none) "" (fun _ => .ok []) "x" "prod" = .ok r ∧
      ∀ call ∈ r.calls, call.ns = "default" := by
  obtain ⟨r, hr, hns, _⟩ :=
    create_pod_namespace (fun _ => none) "" (fun _ => .ok []) "x" "prod" [] rfl
  exact ⟨r, hr, hns⟩

/-! ### Lemmas on fuzzy matching and `delete_pod` -/

theorem pickBest_eq_none {ratio : String → String → ℚ} {word : String} {l : List String} :
    pickBest ratio word l = none ↔ l = [] := by
  cases l with
  | nil => simp [pickBest]
  | cons x rest =>
    simp only [pickBest]
    cases pickBest ratio word rest with
    | none => simp
    | some b =>
      show (if ratio b word < ratio x word ∨ (ratio x word = ratio b word ∧ b < x)
          then some x else some b) = (none : Option String) ↔ x :: rest = []
      refine iff_of_false ?_ (by simp)
      intro h
      split at h <;> simp at h

theorem pickBest_eq_some {ratio : String → String → ℚ} {word : String} :
    ∀ {l : List String} {s : String}, pickBest ratio word l = some s →
      s ∈ l ∧ ∀ x ∈ l, ratio x word ≤ ratio s word := by
  intro l
  induction l with
  | nil =>
    intro s h
    cases h
  | cons x rest ih =>
    intro s h
    rw [pickBest] at h
    cases hp : pickBest ratio word rest with
    | none =>
      rw [hp] at h
      have hrest : rest = [] := pickBest_eq_none.mp hp
      subst hrest
      cases h
      exact ⟨List.mem_singleton.mpr rfl, by simp⟩
    | some b =>
      rw [hp] at h
      replace h : (if ratio b word < ratio x word ∨ (ratio x word = ratio b word ∧ b < x)
          then some x else some b) = some s := h
      obtain ⟨hbmem, hbmax⟩ := ih hp
      by_cases hc : ratio b word < ratio x word ∨ (ratio x word = ratio b word ∧ b < x)
      · rw [if_pos hc] at h
        cases h
        refine ⟨List.mem_cons_self _ _, ?_⟩
        intro y hy
        rcases List.mem_cons.mp hy with hy | hy
        · subst hy
          exact le_refl _
        · rcases hc with hc | hc
          · exact le_trans (hbmax y hy) (le_of_lt hc)
          · exact le_trans (hbmax y hy) (le_of_eq hc.1.symm)
      · rw [if_neg hc] at h
        cases h
        push_neg at hc
        refine ⟨List.mem_cons_of_mem _ hbmem, ?_⟩
        intro y hy
        rcases List.mem_cons.mp hy with hy | hy
        · subst hy
          exact hc.1
        · exact hbmax y hy

theorem get_close_matches1_isSome_iff (ratio : String → String → ℚ) (cutoff : ℚ)
    (word : String) (poss : List String) :
    (get_close_matches1 ratio cutoff word poss).isSome ↔
      ∃ x ∈ poss, cutoff ≤ ratio x word := by
  rw [get_close_matches1]
  cases hp : pickBest ratio word (poss.filter fun x => cutoff ≤ ratio x word) with
  | none =>
    have hnil := pickBest_eq_none.mp hp
    simp only [Option.isSome_none, Bool.false_eq_true, false_iff]
    rintro ⟨x, hx, hc⟩
    have hmem : x ∈ poss.filter fun x => cutoff ≤ ratio x word :=
      List.mem_filter.mpr ⟨hx, decide_eq_true hc⟩
    rw [hnil] at hmem
    cases hmem
  | some s =>
    obtain ⟨hs, _⟩ := pickBest_eq_some hp
    obtain ⟨hsmem, hsc⟩ := List.mem_filter.mp hs
    simp only [Option.isSome_some, true_iff]
    exact ⟨s, hsmem, of_decide_eq_true hsc⟩

theorem get_close_matches1_spec {ratio : String → String → ℚ} {cutoff : ℚ}
    {word s : String} {poss : List String}
    (h : get_close_matches1 ratio cutoff word poss = some s) :
    s ∈ poss ∧ cutoff ≤ ratio s word ∧
      ∀ x ∈ poss, cutoff ≤ ratio x word → ratio x word ≤ ratio s word := by
  rw [get_close_matches1] at h
  obtain ⟨hs, hmax⟩ := pickBest_eq_some h
  obtain ⟨hsmem, hsc⟩ := List.mem_filter.mp hs
  refine ⟨hsmem, of_decide_eq_true hsc, ?_⟩
  intro x hx hc
  exact hmax x (List.mem_filter.mpr ⟨hx, decide_eq_true hc⟩)

/-- The deleted/failed/calls components of the `delete_pod` loop, as
filters over the candidate list: a candidate reaches the deletion attempt
iff it is an existing name or has no close match, and then lands in
deleted or failed according to the API outcome. -/
theorem deleteLoop_eq (ratio : String → String → ℚ) (df : String → Option String)
    (existing : List String) (ns : String) : ∀ l : List String,
    (deleteLoop ratio df existing ns l).1 = l.filter (fun c =>
        (decide (c ∈ existing) || (get_close_matches1 ratio (mkRat 3 5) c existing).isNone) &&
        (df c).isNone) ∧
    (deleteLoop ratio df existing ns l).2.1 = (l.filter (fun c =>
        (decide (c ∈ existing) || (get_close_matches1 ratio (mkRat 3 5) c existing).isNone) &&
        (df c).isSome)).map (fun c => c ++ " (" ++ ((df c).getD "") ++ ")") ∧
    (deleteLoop ratio df existing ns l).2.2.2 = (l.filter (fun c =>
        decide (c ∈ existing) || (get_close_matches1 ratio (mkRat 3 5) c existing).isNone)).map
        (fun c => (⟨c, ns⟩ : DeleteCall)) := by
  intro l
  induction l with
  | nil => exact ⟨rfl, rfl, rfl⟩
  | cons pod_name rest ih =>
    obtain ⟨ih1, ih2, ih3⟩ := ih
    rw [deleteLoop]
    by_cases hm : pod_name ∈ existing
    · cases hd : df pod_name with
      | none =>
        refine ⟨?_, ?_, ?_⟩ <;>
          simp [List.filter_cons, hm, hd, ih1, ih2, ih3]
      | some e =>
        refine ⟨?_, ?_, ?_⟩ <;>
          simp [List.filter_cons, hm, hd, ih1, ih2, ih3]
    · cases hg : get_close_matches1 ratio (mkRat 3 5) pod_name existing with
      | some s =>
        refine ⟨?_, ?_, ?_⟩ <;>
          simp [List.filter_cons, hm, hg, ih1, ih2, ih3]
      | none =>
        cases hd : df pod_name with
        | none =>
          refine ⟨?_, ?_, ?_⟩ <;>
            simp [List.filter_cons, hm, hg, hd, ih1, ih2, ih3]
        | some e =>
          refine ⟨?_, ?_, ?_⟩ <;>
            simp [List.filter_cons, hm, hg, hd, ih1, ih2, ih3]

/-- Every suggestion entry of the `delete_pod` loop records a candidate
that is not an existing name, together with its close match. -/
theorem deleteLoop_suggestions_mem (ratio : String → String → ℚ) (df : String → Option String)
    (existing : List String) (ns : String) : ∀ (l : List String) (k v : String),
    (k, v) ∈ (deleteLoop ratio df existing ns l).2.2.1 →
      k ∈ l ∧ k ∉ existing ∧ get_close_matches1 ratio (mkRat 3 5) k existing = some v := by
  intro l
  induction l with
  | nil =>
    intro k v h
    cases h
  | cons pod_name rest ih =>
    intro k v h
    rw [deleteLoop] at h
    by_cases hm : pod_name ∈ existing
    · cases hd : df pod_name with
      | none =>
        simp only [hm, not_true_eq_false, if_false, hd] at h
        obtain ⟨h1, h2, h3⟩ := ih k v h
        exact ⟨List.mem_cons_of_mem _ h1, h2, h3⟩
      | some e =>
        simp only [hm, not_true_eq_false, if_false, hd] at h
        obtain ⟨h1, h2, h3⟩ := ih k v h
        exact ⟨List.mem_cons_of_mem _ h1, h2, h3⟩
    · cases hg : get_close_matches1 ratio (mkRat 3 5) pod_name existing with
      | some s =>
        simp only [hm, not_false_eq_true, if_true, hg] at h
        rcases List.mem_cons.mp h with h | h
        · cases h
          exact ⟨List.mem_cons_self _ _, hm, hg⟩
        · obtain ⟨h1, h2, h3⟩ := ih k v (List.mem_of_mem_filter h)
          exact ⟨List.mem_cons_of_mem _ h1, h2, h3⟩
      | none =>
        cases hd : df pod_name with
        | none =>
          simp only [hm, not_false_eq_true, if_true, hg, hd] at h
          obtain ⟨h1, h2, h3⟩ := ih k v h
          exact ⟨List.mem_cons_of_mem _ h1, h2, h3⟩
        | some e =>
          simp only [hm, not_false_eq_true, if_true, hg, hd] at h
          obtain ⟨h1, h2, h3⟩ := ih k v h
          exact ⟨List.mem_cons_of_mem _ h1, h2, h3⟩

/-- A candidate that is routed to the suggestion branch has exactly one
suggestion entry, carrying its close match. -/
theorem deleteLoop_suggestion_unique (ratio : String → String → ℚ) (df : String → Option String)
    (existing : List String) (ns : String) : ∀ (l : List String) (c s : String), c ∈ l →
    c ∉ existing → get_close_matches1 ratio (mkRat 3 5) c existing = some s →
      ((deleteLoop ratio df existing ns l).2.2.1).filter (fun p => p.1 = c) = [(c, s)] := by
  intro l
  induction l with
  | nil =>
    intro c s hc
    cases hc
  | cons pod_name rest ih =>
    intro c s hc hcex hcg
    rw [deleteLoop]
    by_cases hm : pod_name ∈ existing
    · have hcr : c ∈ rest := by
        rcases List.mem_cons.mp hc with h | h
        · exact absurd (h ▸ hm) hcex
        · exact h
      cases hd : df pod_name with
      | none =>
        simp only [hm, not_true_eq_false, if_false, hd]
        exact ih c s hcr hcex hcg
      | some e =>
        simp only [hm, not_true_eq_false, if_false, hd]
        exact ih c s hcr hcex hcg
    · cases hg : get_close_matches1 ratio (mkRat 3 5) pod_name existing with
      | some s0 =>
        simp only [hm, not_false_eq_true, if_true, hg]
        by_cases hpc : pod_name = c
        · subst hpc
          rw [hg] at hcg
          cases hcg
          simp only [List.filter_cons]
          rw [if_pos (by simp)]
          have hnil : List.filter (fun p => decide (p.1 = pod_name))
              (List.filter (fun x => decide (x.1 ≠ pod_name))
                (deleteLoop ratio df existing ns rest).2.2.1) = [] := by
            rw [List.filter_filter]
            apply List.filter_eq_nil_iff.mpr
            intro p hp
            by_cases hq : p.1 = pod_name <;> simp [hq]
          rw [hnil]
        · have hcr : c ∈ rest := by
            rcases List.mem_cons.mp hc with h | h
            · exact absurd h.symm hpc
            · exact h
          have step1 : List.filter (fun p => decide (p.1 = c))
              ((pod_name, s0) :: List.filter (fun x => decide (x.1 ≠ pod_name))
                (deleteLoop ratio df existing ns rest).2.2.1) =
              List.filter (fun p => decide (p.1 = c))
                (List.filter (fun x => decide (x.1 ≠ pod_name))
                  (deleteLoop ratio df existing ns rest).2.2.1) := by
            simp [List.filter_cons, hpc]
          rw [step1, List.filter_filter, ← ih c s hcr hcex hcg]
          apply List.filter_congr
          intro p hp
          by_cases hpeq : p.1 = c
          · have hppod : p.1 ≠ pod_name := fun h => hpc (h ▸ hpeq)
            have hcp : ¬c = pod_name := fun h => hpc h.symm
            simp [hpeq, hppod, hcp]
          · simp [hpeq]
      | none =>
        have hcr : c ∈ rest := by
          rcases List.mem_cons.mp hc with h | h
          · subst h
            rw [hg] at hcg
            cases hcg
          · exact h
        cases hd : df pod_name with
        | none =>
          simp only [hm, not_false_eq_true, if_true, hg, hd]
          exact ih c s hcr hcex hcg
        | some e =>
          simp only [hm, not_false_eq_true, if_true, hg, hd]
          exact ih c s hcr hcex hcg

/-- Counterexample to C3 as stated: a candidate ("zzz") that matches no
existing pod and for which no existing name clears the similarity
threshold is claimed to produce "neither a deletion nor a suggestion" —
but `delete_pod` falls through to the deletion attempt anyway: a deletion
call for "zzz" is issued against the cluster (here failing with a
404-style error that is collected into `failed`). -/
theorem delete_pod_unmatched_counterexample :
    "zzz" ∉ ["web-1"] ∧
    get_close_matches1 (fun _ _ => 0) (mkRat 3 5) "zzz" ["web-1"] = none ∧
    (delete_pod (fun _ _ => 0) (fun _ => some "404 not found")
      (fun _ => .ok [⟨"web-1", "Running", []⟩]) "zzz" "default").suggestions = [] ∧
    (delete_pod (fun _ _ => 0) (fun _ => some "404 not found")
      (fun _ => .ok [⟨"web-1", "Running", []⟩]) "zzz" "default").calls =
      [⟨"zzz", "default"⟩] ∧
    (delete_pod (fun _ _ => 0) (fun _ => some "404 not found")
      (fun _ => .ok [⟨"web-1", "Running", []⟩]) "zzz" "default").failed =
      ["zzz (404 not found)"] := by
  decide

/-- C3 (amended): for each candidate of a `delete_pod` batch — an exact
match is submitted for deletion at once (deleted on success, its failure
collected otherwise) with no suggestion recorded; a non-matching candidate
with a close match above the threshold gets exactly one suggestion, the
single closest existing name, and no deletion call; a non-matching
candidate with no name above the threshold gets no suggestion and — the
amendment — is nevertheless submitted for deletion, which against an
accurate snapshot cannot succeed (nothing is deleted when deleting absent
names fails), its failure being collected.  Per-name failures never abort
the rest of the batch: these guarantees hold for every candidate
regardless of the API outcomes for the others. -/
theorem delete_pod_resolution (ratio : String → String → ℚ) (df : String → Option String)
    (lnp : String → Except String (List Pod)) (names ns : String) (pods : List Pod)
    (hok : lnp ns = .ok pods) :
    ∀ c ∈ parsedDeleteNames names,
      (c ∈ pods.map Pod.name →
        (⟨c, ns⟩ : DeleteCall) ∈ (delete_pod ratio df lnp names ns).calls ∧
        (∀ v, (c, v) ∉ (delete_pod ratio df lnp names ns).suggestions) ∧
        (df c = none → c ∈ (delete_pod ratio df lnp names ns).deleted) ∧
        (∀ e, df c = some e →
          (c ++ " (" ++ e ++ ")") ∈ (delete_pod ratio df lnp names ns).failed)) ∧
      (∀ s, c ∉ pods.map Pod.name →
        get_close_matches1 ratio (mkRat 3 5) c (pods.map Pod.name) = some s →
        ((delete_pod ratio df lnp names ns).suggestions.filter (fun p => p.1 = c) = [(c, s)] ∧
         s ∈ pods.map Pod.name ∧ mkRat 3 5 ≤ ratio s c ∧
         (∀ x ∈ pods.map Pod.name, mkRat 3 5 ≤ ratio x c → ratio x c ≤ ratio s c) ∧
         ∀ m, (⟨c, m⟩ : DeleteCall) ∉ (delete_pod ratio df lnp names ns).calls)) ∧
      (c ∉ pods.map Pod.name →
        get_close_matches1 ratio (mkRat 3 5) c (pods.map Pod.name) = none →
        (⟨c, ns⟩ : DeleteCall) ∈ (delete_pod ratio df lnp names ns).calls ∧
        (∀ v, (c, v) ∉ (delete_pod ratio df lnp names ns).suggestions) ∧
        ((∀ n, n ∉ pods.map Pod.name → df n ≠ none) →
          c ∉ (delete_pod ratio df lnp names ns).deleted) ∧
        (∀ e, df c = some e →
          (c ++ " (" ++ e ++ ")") ∈ (delete_pod ratio df lnp names ns).failed)) := by
  intro c hc
  have hdel : (delete_pod ratio df lnp names ns).deleted =
      (deleteLoop ratio df (pods.map Pod.name) ns (parsedDeleteNames names)).1 := by
    simp [delete_pod, hok]
  have hfail : (delete_pod ratio df lnp names ns).failed =
      (deleteLoop ratio df (pods.map Pod.name) ns (parsedDeleteNames names)).2.1 := by
    simp [delete_pod, hok]
  have hsug : (delete_pod ratio df lnp names ns).suggestions =
      (deleteLoop ratio df (pods.map Pod.name) ns (parsedDeleteNames names)).2.2.1 := by
    simp [delete_pod, hok]
  have hcalls : (delete_pod ratio df lnp names ns).calls =
      (deleteLoop ratio df (pods.map Pod.name) ns (parsedDeleteNames names)).2.2.2 := by
    simp [delete_pod, hok]
  obtain ⟨hDL1, hDL2, hDL3⟩ := deleteLoop_eq ratio df (pods.map Pod.name) ns
    (parsedDeleteNames names)
  refine ⟨?_, ?_, ?_⟩
  · intro hmem
    refine ⟨?_, ?_, ?_, ?_⟩
    · rw [hcalls, hDL3]
      exact List.mem_map.mpr ⟨c, List.mem_filter.mpr ⟨hc, by simp [hmem]⟩, rfl⟩
    · intro v hv
      rw [hsug] at hv
      exact absurd hmem (deleteLoop_suggestions_mem ratio df (pods.map Pod.name) ns
        (parsedDeleteNames names) c v hv).2.1
    · intro hdf
      rw [hdel, hDL1]
      exact List.mem_filter.mpr ⟨hc, by simp [hmem, hdf]⟩
    · intro e hdf
      rw [hfail, hDL2]
      exact List.mem_map.mpr ⟨c, List.mem_filter.mpr ⟨hc, by simp [hmem, hdf]⟩, by simp [hdf]⟩
  · intro s hnot hg
    obtain ⟨hs1, hs2, hs3⟩ := get_close_matches1_spec hg
    refine ⟨?_, hs1, hs2, hs3, ?_⟩
    · rw [hsug]
      exact deleteLoop_suggestion_unique ratio df (pods.map Pod.name) ns
        (parsedDeleteNames names) c s hc hnot hg
    · intro m hm'
      rw [hcalls, hDL3] at hm'
      obtain ⟨x, hx, hxeq⟩ := List.mem_map.mp hm'
      have hxc : x = c := congrArg DeleteCall.name hxeq
      subst hxc
      have := (List.mem_filter.mp hx).2
      simp [hnot, hg] at this
  · intro hnot hg
    refine ⟨?_, ?_, ?_, ?_⟩
    · rw [hcalls, hDL3]
      exact List.mem_map.mpr ⟨c, List.mem_filter.mpr ⟨hc, by simp [hg]⟩, rfl⟩
    · intro v hv
      rw [hsug] at hv
      have := (deleteLoop_suggestions_mem ratio df (pods.map Pod.name) ns
        (parsedDeleteNames names) c v hv).2.2
      rw [hg] at this
      cases this
    · intro hmiss hdel'
      rw [hdel, hDL1] at hdel'
      have := (List.mem_filter.mp hdel').2
      simp only [Bool.and_eq_true, Option.isNone_iff_eq_none] at this
      exact hmiss c hnot this.2
    · intro e hdf
      rw [hfail, hDL2]
      exact List.mem_map.mpr ⟨c, List.mem_filter.mpr ⟨hc, by simp [hg, hdf]⟩, by simp [hdf]⟩

/-- Witness for the amended C3, mirroring the spec's example: deleting
"web-1 web-x" among existing ["web-1", "web-2"]: the exact match "web-1"
is deleted with no suggestion, the typo "web-x" (similarity 7/10 to
"web-1") gets exactly the suggestion "web-1" and no deletion call. -/
theorem delete_pod_resolution_witness :
    ((⟨"web-1", "default"⟩ : DeleteCall) ∈
      (delete_pod (fun x w => if x = "web-1" ∧ w = "web-x" then mkRat 7 10 else 0)
        (fun n => if n = "web-1" ∨ n = "web-2" then none else some "404")
        (fun _ => .ok [⟨"web-1", "Running", []⟩, ⟨"web-2", "Running", []⟩])
        "web-1 web-x" "default").calls) ∧
    ("web-1" ∈
      (delete_pod (fun x w => if x = "web-1" ∧ w = "web-x" then mkRat 7 10 else 0)
        (fun n => if n = "web-1" ∨ n = "web-2" then none else some "404")
        (fun _ => .ok [⟨"web-1", "Running", []⟩, ⟨"web-2", "Running", []⟩])
        "web-1 web-x" "default").deleted) ∧
    ((delete_pod (fun x w => if x = "web-1" ∧ w = "web-x" then mkRat 7 10 else 0)
        (fun n => if n = "web-1" ∨ n = "web-2" then none else some "404")
        (fun _ => .ok [⟨"web-1", "Running", []⟩, ⟨"web-2", "Running", []⟩])
        "web-1 web-x" "default").suggestions.filter (fun p => p.1 = "web-x") =
      [("web-x", "web-1")]) ∧
    (∀ m, (⟨"web-x", m⟩ : DeleteCall) ∉
      (delete_pod (fun x w => if x = "web-1" ∧ w = "web-x" then mkRat 7 10 else 0)
        (fun n => if n = "web-1" ∨ n = "web-2" then none else some "404")
        (fun _ => .ok [⟨"web-1", "Running", []⟩, ⟨"web-2", "Running", []⟩])
        "web-1 web-x" "default").calls) := by
  have h := delete_pod_resolution (fun x w => if x = "web-1" ∧ w = "web-x" then mkRat 7 10 else 0)
    (fun n => if n = "web-1" ∨ n = "web-2" then none else some "404")
    (fun _ => .ok [⟨"web-1", "Running", []⟩, ⟨"web-2", "Running", []⟩])
    "web-1 web-x" "default" [⟨"web-1", "Running", []⟩, ⟨"web-2", "Running", []⟩] rfl
  obtain ⟨h1, -, -⟩ := h "web-1" (by decide)
  obtain ⟨-, h2, -⟩ := h "web-x" (by decide)
  obtain ⟨hc1, -, hd1, -⟩ := h1 (by decide)
  obtain ⟨hs, -, -, -, hnc⟩ := h2 "web-1" (by decide) (by decide)
  exact ⟨hc1, hd1 (by decide), hs, hnc⟩

/-- C10: whenever `delete_pod` records at least one suggestion, its return
value consists solely of the per-suggestion confirmation prompts — the
deleted/failed report assembled earlier in the call is discarded, even
though those deletions were really performed. -/
theorem delete_pod_response_suggestions_only (ratio : String → String → ℚ)
    (df : String → Option String) (lnp : String → Except String (List Pod))
    (names ns : String)
    (h : (delete_pod ratio df lnp names ns).suggestions ≠ []) :
    (delete_pod ratio df lnp names ns).response =
      String.intercalate "\n" ((delete_pod ratio df lnp names ns).suggestions.map
        (fun p => suggestionLine p.1 p.2)) := by
  cases hl : lnp ns with
  | error e =>
    exfalso
    apply h
    simp [delete_pod, hl]
  | ok pods =>
    rw [delete_pod, hl] at h ⊢
    simp only at h ⊢
    rw [deleteResponse, if_pos h]

/-- Witness for C10: a batch where "web-1" is actually deleted while
"web-x" draws a suggestion — the response shows only the confirmation
prompt. -/
theorem delete_pod_response_suggestions_only_witness :
    (delete_pod (fun x w => if x = "web-1" ∧ w = "web-x" then mkRat 7 10 else 0)
      (fun _ => none)
      (fun _ => .ok [⟨"web-1", "Running", []⟩, ⟨"web-2", "Running", []⟩])
      "web-1 web-x" "default").response =
      String.intercalate "\n"
        ((delete_pod (fun x w => if x = "web-1" ∧ w = "web-x" then mkRat 7 10 else 0)
          (fun _ => none)
          (fun _ => .ok [⟨"web-1", "Running", []⟩, ⟨"web-2", "Running", []⟩])
          "web-1 web-x" "default").suggestions.map (fun p => suggestionLine p.1 p.2)) ∧
    (delete_pod (fun x w => if x = "web-1" ∧ w = "web-x" then mkRat 7 10 else 0)
      (fun _ => none)
      (fun _ => .ok [⟨"web-1", "Running", []⟩, ⟨"web-2", "Running", []⟩])
      "web-1 web-x" "default").deleted = ["web-1"] :=
  ⟨delete_pod_response_suggestions_only _ _ _ _ _ (by decide), by decide⟩

/-! ### Lemmas on the `delete_pod` input normalization (C9) -/

theorem isPrefixOf_append_self (l1 l2 : List Char) : l1.isPrefixOf (l1 ++ l2) = true := by
  induction l1 with
  | nil => simp [List.isPrefixOf]
  | cons a t ih => simp [List.isPrefixOf, ih]

/-- A character that cannot start `sep` is copied through the replace scan. -/
theorem replaceList_cons_of_not_prefix (sep rep : List Char) (c : Char) (l : List Char)
    (h : sep.isPrefixOf (c :: l) = false) :
    replaceList sep rep (c :: l) = c :: replaceList sep rep l := by
  rw [replaceList_cons, if_neg]
  rintro ⟨-, hpre⟩
  rw [h] at hpre
  cases hpre

/-- A block of characters none of which can start `sep` is copied through
the replace scan. -/
theorem replaceList_append (s0 : Char) (stail rep : List Char) (x : List Char)
    (hx : ∀ c ∈ x, c ≠ s0) (l : List Char) :
    replaceList (s0 :: stail) rep (x ++ l) = x ++ replaceList (s0 :: stail) rep l := by
  induction x with
  | nil => rfl
  | cons c t ih =>
    have hc : (s0 :: stail).isPrefixOf (c :: (t ++ l)) = false := by
      simp only [List.isPrefixOf, Bool.and_eq_false_iff]
      exact Or.inl (beq_eq_false_iff_ne.mpr (fun he => hx c (List.mem_cons_self c t) he.symm))
    rw [List.cons_append, replaceList_cons_of_not_prefix _ _ _ _ hc,
      ih (fun d hd => hx d (List.mem_cons_of_mem c hd)), List.cons_append]

/-- An occurrence of `sep` itself is replaced. -/
theorem replaceList_sep_append (s0 : Char) (stail rep l : List Char) :
    replaceList (s0 :: stail) rep ((s0 :: stail) ++ l) = rep ++ replaceList (s0 :: stail) rep l := by
  rw [List.cons_append, replaceList_cons, if_pos]
  · rw [show (s0 :: (stail ++ l)).drop (s0 :: stail).length = l from ?_]
    · rw [← List.cons_append]
      exact List.drop_left _ _
  · exact ⟨by simp, by rw [← List.cons_append]; exact isPrefixOf_append_self _ _⟩

theorem dropWhile_eq_self_bool {α : Type} (p : α → Bool) (l : List α)
    (h : ∀ c ∈ l, p c = false) : l.dropWhile p = l := by
  cases l with
  | nil => rfl
  | cons a t =>
    rw [List.dropWhile_cons, if_neg]
    simp [h a (List.mem_cons_self a t)]

/-- `str.strip()` does nothing to a whitespace-free string. -/
theorem pyStrip_eq_self {s : String} (h : ∀ c ∈ s.data, c.isWhitespace = false) :
    pyStrip s = s := by
  rw [pyStrip, dropWhile_eq_self_bool _ _ h,
    dropWhile_eq_self_bool _ _ (fun c hc => h c (List.mem_reverse.mp hc)),
    List.reverse_reverse]

/-- Counterexample to C9 as stated: the word "and" is only treated as a
separator when it is surrounded by single spaces (the code replaces the
literal substring `" and "`).  In `"a,and,b"` the token "and" survives as
a candidate pod name, contradicting "never as a candidate name". -/
theorem parsedDeleteNames_and_counterexample :
    parsedDeleteNames "a,and,b" = ["a", "and", "b"] := by decide

/-- C9 (amended): `delete_pod` normalizes its input by replacing the
literal substring `" and "` (the word "and" surrounded by spaces) with a
comma and then splits on runs of commas and spaces, every maximal run of
non-separator characters becoming one candidate; a space-flanked " and "
separates exactly like a comma.  (An "and" token not flanked by spaces is
an ordinary candidate, see the counterexample.) -/
theorem parsedDeleteNames_and_separator (x y : String) (hx : x ≠ "")
    (hxc : ∀ c ∈ x.data, c.isWhitespace = false ∧ c ≠ ',') :
    parsedDeleteNames (x ++ " and " ++ y) = x :: parsedDeleteNames y ∧
    parsedDeleteNames (x ++ "," ++ y) = x :: parsedDeleteNames y := by
  have hw : ∀ c ∈ x.data, c.isWhitespace = false := fun c hc => (hxc c hc).1
  have hs : ∀ c ∈ x.data, c ≠ ' ' := by
    intro c hc he
    have := (hxc c hc).1
    rw [he] at this
    simp at this
  have hp : ∀ c ∈ x.data, ¬ ((fun c => c == ' ' || c == ',') c = true) := by
    intro c hc
    simp only [Bool.or_eq_true, beq_iff_eq]
    rintro (he | he)
    · exact hs c hc he
    · exact (hxc c hc).2 he
  have hmk : (⟨x.data⟩ : String) = x := rfl
  have hsepd : (" and ".data : List Char) = ' ' :: "and ".data := rfl
  constructor
  · have h1 : (x ++ " and " ++ y).data = x.data ++ (" and ".data ++ y.data) := by
      simp [String.data_append, List.append_assoc]
    have h2 : replaceList " and ".data ",".data ((x ++ " and " ++ y).data) =
        x.data ++ ',' :: replaceList " and ".data ",".data y.data := by
      rw [h1, hsepd, replaceList_append ' ' "and ".data ",".data x.data hs,
        replaceList_sep_append]
      rfl
    simp only [parsedDeleteNames, splitOnPred, h2]
    rw [List.splitOnP_first _ _ hp ',' (by decide)]
    simp [List.filter_cons, pyStrip_eq_self hw, hmk, hx]
  · have h1 : (x ++ "," ++ y).data = x.data ++ ',' :: y.data := by
      simp [String.data_append, List.append_assoc]
    have h2 : replaceList " and ".data ",".data ((x ++ "," ++ y).data) =
        x.data ++ ',' :: replaceList " and ".data ",".data y.data := by
      rw [h1, hsepd, replaceList_append ' ' "and ".data ",".data x.data hs,
        replaceList_cons_of_not_prefix _ _ _ _ (by simp [List.isPrefixOf])]
    simp only [parsedDeleteNames, splitOnPred, h2]
    rw [List.splitOnP_first _ _ hp ',' (by decide)]
    simp [List.filter_cons, pyStrip_eq_self hw, hmk, hx]

/-- Witness for the amended C9: "web-1 and web-2" and "web-1,web-2" parse
to the same two candidates. -/
theorem parsedDeleteNames_and_separator_witness :
    parsedDeleteNames ("web-1" ++ " and " ++ "web-2") = "web-1" :: parsedDeleteNames "web-2" ∧
    parsedDeleteNames ("web-1" ++ "," ++ "web-2") = "web-1" :: parsedDeleteNames "web-2" ∧
    parsedDeleteNames "web-1 and web-2" = ["web-1", "web-2"] := by
  obtain ⟨h1, h2⟩ := parsedDeleteNames_and_separator "web-1" "web-2" (by decide) (by decide)
  exact ⟨h1, h2, by decide⟩

/-! ### Lemmas on the interactive session (C6) -/

/-- `response.split("'")` on a `delete_pod` confirmation prompt, for names
free of single quotes: seven chunks, the suggested name at index 3. -/
theorem splitOnPred_suggestionLine (bad good : String)
    (hb : '\'' ∉ bad.data) (hg : '\'' ∉ good.data) :
    splitOnPred (· == '\'') (suggestionLine bad good) =
      ["Pod ", bad, " not found. Did you mean ", good, "? Reply ", "yes", " to delete it."] := by
  have hb' : ∀ c ∈ bad.data, ¬ ((c == '\'') = true) := by
    intro c hc h
    exact hb ((beq_iff_eq.mp h) ▸ hc)
  have hg' : ∀ c ∈ good.data, ¬ ((c == '\'') = true) := by
    intro c hc h
    exact hg ((beq_iff_eq.mp h) ▸ hc)
  have hshape : (suggestionLine bad good).data =
      "Pod ".data ++ '\'' :: (bad.data ++ '\'' :: (" not found. Did you mean ".data ++ '\'' ::
        (good.data ++ '\'' :: ("? Reply ".data ++ '\'' :: ("yes".data ++ '\'' ::
          " to delete it.".data))))) := by
    have e1 : ("Pod '".data : List Char) = "Pod ".data ++ ['\''] := rfl
    have e2 : ("' not found. Did you mean '".data : List Char) =
        '\'' :: (" not found. Did you mean ".data ++ ['\'']) := rfl
    have e3 : ("'? Reply 'yes' to delete it.".data : List Char) =
        '\'' :: ("? Reply ".data ++ '\'' :: ("yes".data ++ '\'' :: " to delete it.".data)) := rfl
    simp only [suggestionLine, String.data_append, e1, e2, e3, List.append_assoc,
      List.cons_append, List.nil_append]
  have hsplit : ((suggestionLine bad good).data.splitOnP (· == '\'')) =
      ["Pod ".data, bad.data, " not found. Did you mean ".data, good.data,
        "? Reply ".data, "yes".data, " to delete it.".data] := by
    rw [hshape]
    rw [List.splitOnP_first _ _ (by decide) '\'' (by decide)]
    rw [List.splitOnP_first _ _ hb' '\'' (by decide)]
    rw [List.splitOnP_first _ _ (by decide) '\'' (by decide)]
    rw [List.splitOnP_first _ _ hg' '\'' (by decide)]
    rw [List.splitOnP_first _ _ (by decide) '\'' (by decide)]
    rw [List.splitOnP_first _ _ (by decide) '\'' (by decide)]
    rw [show List.splitOnP (fun x => x == '\'') " to delete it.".data =
      [" to delete it.".data] from List.splitOnP_eq_single _ _ (by decide)]
  rw [splitOnPred, hsplit]
  rfl

/-- The confirmation prompt contains the substring `"Did you mean"`. -/
theorem pyIn_didyoumean_suggestionLine (bad good : String) :
    pyIn "Did you mean" (suggestionLine bad good) = true := by
  apply decide_eq_true
  have hmid : (" not found. Did you mean ".data : List Char) <:+:
      (suggestionLine bad good).data := by
    refine ⟨"Pod '".data ++ bad.data ++ ['\''],
      '\'' :: (good.data ++ "'? Reply 'yes' to delete it.".data), ?_⟩
    simp [suggestionLine, String.data_append, List.append_assoc]
  have hneed : ("Did you mean".data : List Char) <:+: " not found. Did you mean ".data := by
    decide
  exact hneed.trans hmid

/-- The confirmation prompt contains the substring
`"Reply 'yes' to delete it"`. -/
theorem pyIn_reply_suggestionLine (bad good : String) :
    pyIn "Reply 'yes' to delete it" (suggestionLine bad good) = true := by
  apply decide_eq_true
  have htail : ("'? Reply 'yes' to delete it.".data : List Char) <:+:
      (suggestionLine bad good).data := by
    refine ⟨"Pod '".data ++ bad.data ++ "' not found. Did you mean '".data ++ good.data,
      [], ?_⟩
    simp [suggestionLine, String.data_append, List.append_assoc]
  have hneed : ("Reply 'yes' to delete it".data : List Char) <:+:
      "'? Reply 'yes' to delete it.".data := by
    decide
  exact hneed.trans htail

/-- Counterexample to C6 as stated: in `AwaitingConfirmation`, the input
"quit" does not re-prompt and remain — the quit check runs before the
confirmation handling, so the session exits. -/
theorem session_step_quit_counterexample :
    (session_step (fun _ => "") (fun _ => "")
      ⟨some "web-1", some "delete_pod"⟩ "quit").quit = true ∧
    (session_step (fun _ => "") (fun _ => "")
      ⟨some "web-1", some "delete_pod"⟩ "quit").printed ≠
      ["I didn't understand. Do you want to proceed with the deletion? Reply 'yes' or 'no'."] ∧
    (session_step (fun _ => "") (fun _ => "")
      ⟨some "web-1", some "delete_pod"⟩ "quit").invoked = [] := by
  decide

/-- C6 (amended): per-turn behaviour of the interactive session.  In
`AwaitingConfirmation` (a pending name stored together with the
"delete_pod" action): "yes" re-invokes deletion through `process_query`
with the stored suggested exact name and returns to `Idle`; "no" discards
the pending confirmation and returns to `Idle` invoking nothing; any other
input except "quit" (which exits the session from any state) leaves the
state unchanged and only re-prompts.  In `Idle`, a `delete_pod` response
of the confirmation-prompt shape moves the session to
`AwaitingConfirmation` storing the suggested name from the prompt. -/
theorem session_step_confirmation (respond aiFix : String → String) (pc : String)
    (pa : Option String) (raw : String) :
    (lowerStr (pyStrip raw) = "yes" →
      (session_step respond aiFix ⟨some pc, some "delete_pod"⟩ raw).state = ⟨none, none⟩ ∧
      (session_step respond aiFix ⟨some pc, some "delete_pod"⟩ raw).invoked =
        ["delete_pod name=" ++ pc] ∧
      (session_step respond aiFix ⟨some pc, some "delete_pod"⟩ raw).quit = false) ∧
    (lowerStr (pyStrip raw) = "no" →
      (session_step respond aiFix ⟨some pc, pa⟩ raw).state = ⟨none, none⟩ ∧
      (session_step respond aiFix ⟨some pc, pa⟩ raw).invoked = [] ∧
      (session_step respond aiFix ⟨some pc, pa⟩ raw).quit = false) ∧
    (lowerStr (pyStrip raw) ≠ "yes" → lowerStr (pyStrip raw) ≠ "no" →
      lowerStr (pyStrip raw) ≠ "quit" →
      (session_step respond aiFix ⟨some pc, pa⟩ raw).state = ⟨some pc, pa⟩ ∧
      (session_step respond aiFix ⟨some pc, pa⟩ raw).invoked = [] ∧
      (session_step respond aiFix ⟨some pc, pa⟩ raw).printed =
        ["I didn't understand. Do you want to proceed with the deletion? Reply 'yes' or 'no'."] ∧
      (session_step respond aiFix ⟨some pc, pa⟩ raw).quit = false) ∧
    (∀ bad good, '\'' ∉ bad.data → '\'' ∉ good.data →
      lowerStr (pyStrip raw) ≠ "quit" →
      respond (lowerStr (pyStrip raw)) = suggestionLine bad good →
      pyIn "Error retrieving logs" (suggestionLine bad good) = false →
      (session_step respond aiFix ⟨none, pa⟩ raw).state = ⟨some good, some "delete_pod"⟩ ∧
      (session_step respond aiFix ⟨none, pa⟩ raw).invoked = [lowerStr (pyStrip raw)]) := by
  refine ⟨?_, ?_, ?_, ?_⟩
  · intro hq
    simp [session_step, hq]
  · intro hq
    simp [session_step, hq]
  · intro h1 h2 h3
    simp [session_step, h1, h2, h3]
  · intro bad good hb hg hq hresp hlog
    have hget : (splitOnPred (· == '\'') (suggestionLine bad good))[3]? = some good := by
      rw [splitOnPred_suggestionLine bad good hb hg]
      rfl
    have hdym := pyIn_didyoumean_suggestionLine bad good
    have hrep := pyIn_reply_suggestionLine bad good
    constructor <;>
      simp [session_step, hq, hresp, hlog, hdym, hrep, hget]

set_option maxRecDepth 8192 in
/-- Witness for C6, driving the session over a concrete scenario: a
"delete pod webx" query draws the confirmation prompt and stores "web-1";
"YES " (normalized to "yes") re-invokes deletion of "web-1" and returns to
Idle; "no" cancels to Idle; "maybe" re-prompts leaving the state intact. -/
theorem session_step_confirmation_witness :
    ((session_step (fun q => if q = "delete pod webx" then suggestionLine "webx" "web-1" else "")
        (fun _ => "") ⟨none, none⟩ "delete pod webx").state =
      ⟨some "web-1", some "delete_pod"⟩) ∧
    ((session_step (fun q => if q = "delete pod webx" then suggestionLine "webx" "web-1" else "")
        (fun _ => "") ⟨some "web-1", some "delete_pod"⟩ "YES ").state = ⟨none, none⟩) ∧
    ((session_step (fun q => if q = "delete pod webx" then suggestionLine "webx" "web-1" else "")
        (fun _ => "") ⟨some "web-1", some "delete_pod"⟩ "YES ").invoked =
      ["delete_pod name=web-1"]) ∧
    ((session_step (fun q => if q = "delete pod webx" then suggestionLine "webx" "web-1" else "")
        (fun _ => "") ⟨some "web-1", some "delete_pod"⟩ "no").state = ⟨none, none⟩) ∧
    ((session_step (fun q => if q = "delete pod webx" then suggestionLine "webx" "web-1" else "")
        (fun _ => "") ⟨some "web-1", some "delete_pod"⟩ "maybe").state =
      ⟨some "web-1", some "delete_pod"⟩) := by
  obtain ⟨c1, c2, c3, c4⟩ := session_step_confirmation
    (fun q => if q = "delete pod webx" then suggestionLine "webx" "web-1" else "")
    (fun _ => "") "web-1" (some "delete_pod") "delete pod webx"
  obtain ⟨y1, y2, y3, y4⟩ := session_step_confirmation
    (fun q => if q = "delete pod webx" then suggestionLine "webx" "web-1" else "")
    (fun _ => "") "web-1" (some "delete_pod") "YES "
  obtain ⟨n1, n2, n3, n4⟩ := session_step_confirmation
    (fun q => if q = "delete pod webx" then suggestionLine "webx" "web-1" else "")
    (fun _ => "") "web-1" (some "delete_pod") "no"
  obtain ⟨m1, m2, m3, m4⟩ := session_step_confirmation
    (fun q => if q = "delete pod webx" then suggestionLine "webx" "web-1" else "")
    (fun _ => "") "web-1" (some "delete_pod") "maybe"
  refine ⟨?_, ?_, ?_, ?_, ?_⟩
  · exact (c4 "webx" "web-1" (by decide) (by decide) (by decide) (by decide) (by decide)).1
  · exact (y1 (by decide)).1
  · exact (y1 (by decide)).2.1
  · exact (n2 (by decide)).1
  · exact (m3 (by decide) (by decide) (by decide)).1

/-! ### Tool dispatch (C8) and handler error behaviour (C7) -/

/-- C8: dispatching a tool name absent from the catalog yields an error
string naming the unknown tool without invoking anything; a name in the
catalog invokes the handler with the arguments, and every failing outcome
of the call — missing result, timeout, raised exception — is converted to
an `"Error …"` string.  `dispatch` is a total function: no outcome
propagates an exception past the dispatch boundary. -/
theorem dispatch_spec {α : Type} (catalog : List String)
    (call_tool : String → α → ToolCallOutcome) (fmt : String → String → String)
    (chosen_tool : String) (tool_args : α) :
    (chosen_tool ∉ catalog →
      (dispatch catalog call_tool fmt chosen_tool tool_args).result =
        "Error: `" ++ chosen_tool ++ "` is not a valid tool. Available tools: " ++
          pyStrListRepr catalog ∧
      (dispatch catalog call_tool fmt chosen_tool tool_args).invoked = []) ∧
    (chosen_tool ∈ catalog →
      (dispatch catalog call_tool fmt chosen_tool tool_args).invoked =
        [(chosen_tool, tool_args)] ∧
      (∀ r, call_tool chosen_tool tool_args = .success r →
        (dispatch catalog call_tool fmt chosen_tool tool_args).result = fmt chosen_tool r) ∧
      (call_tool chosen_tool tool_args = .empty →
        (dispatch catalog call_tool fmt chosen_tool tool_args).result =
          "Error: MCP did not return a response, but the pod may have been created.") ∧
      (call_tool chosen_tool tool_args = .timeout →
        (dispatch catalog call_tool fmt chosen_tool tool_args).result =
          "Error: The tool request timed out.") ∧
      (∀ e, call_tool chosen_tool tool_args = .raised e →
        (dispatch catalog call_tool fmt chosen_tool tool_args).result =
          "Error calling tool: " ++ e)) := by
  constructor
  · intro h
    constructor <;> simp [dispatch, h]
  · intro h
    refine ⟨?_, ?_, ?_, ?_, ?_⟩ <;>
      first
      | (simp only [dispatch, if_neg (not_not_intro h)]
         cases call_tool chosen_tool tool_args <;> rfl)
      | (intro r hr
         simp [dispatch, h, hr])
      | (intro hr
         simp [dispatch, h, hr])

/-- Witness for C8: an unknown tool name is rejected with an error string,
and a known tool whose handler raises gets its exception converted. -/
theorem dispatch_spec_witness :
    (dispatch ["list_pods"] (fun _ _ => ToolCallOutcome.raised "boom") (fun _ r => r)
      "nonexistent_tool" (0 : Nat)).result =
      "Error: `nonexistent_tool` is not a valid tool. Available tools: ['list_pods']" ∧
    (dispatch ["list_pods"] (fun _ _ => ToolCallOutcome.raised "boom") (fun _ r => r)
      "nonexistent_tool" (0 : Nat)).invoked = [] ∧
    (dispatch ["list_pods"] (fun _ _ => ToolCallOutcome.raised "boom") (fun _ r => r)
      "list_pods" (0 : Nat)).result = "Error calling tool: boom" := by
  obtain ⟨hno, _⟩ := dispatch_spec ["list_pods"] (fun _ _ => ToolCallOutcome.raised "boom")
    (fun _ r => r) "nonexistent_tool" (0 : Nat)
  obtain ⟨h1, h2⟩ := hno (by decide)
  obtain ⟨_, hyes⟩ := dispatch_spec ["list_pods"] (fun _ _ => ToolCallOutcome.raised "boom")
    (fun _ r => r) "list_pods" (0 : Nat)
  obtain ⟨-, -, -, -, hraised⟩ := hyes (by decide)
  exact ⟨h1.trans (by decide), h2, hraised "boom" rfl⟩

/-- Counterexample to C7 as stated: `create_pod` has no `try`/`except`
around its initial `v1.list_namespaced_pod` call, so an exception raised
there escapes the handler instead of becoming an `"Error"` string. -/
theorem create_pod_listing_exception_counterexample :
    create_pod (fun _ => none) "" (fun _ => .error "boom") "a" "default" =
      Except.error "boom" := rfl

/-- C7 (amended): every tool handler except `create_pod` returns a plain
string on every input (`isOk`); `create_pod` propagates an exception of
its initial pod listing.  Listing handlers and `delete_pod` turn a raising
API call into a string starting with "Error"; `analyze_namespace` uses
"Error analyzing namespace: …"; `pod_logs` is total but renders a non-API
exception as "Unexpected error: …" and a missing pod as "No pod found…",
neither of which starts with "Error". -/
theorem handlers_error_strings :
    (∀ lp ns, (list_pods lp ns).isOk = true) ∧
    (∀ e ns, list_pods (fun _ => .error e) ns = .ok ("Error: " ++ e) ∧
      beginsWith "Error" ("Error: " ++ e) = true) ∧
    (∀ lns, (list_namespaces lns).isOk = true) ∧
    (∀ e, list_namespaces (fun _ => .error e) = .ok ("Error: " ++ e)) ∧
    (∀ ls ns, (list_services ls ns).isOk = true) ∧
    (∀ e ns, list_services (fun _ => .error e) ns = .ok ("Error: " ++ e)) ∧
    (∀ ld ns, (list_deployments ld ns).isOk = true) ∧
    (∀ e ns, list_deployments (fun _ => .error e) ns = .ok ("Error: " ++ e)) ∧
    (∀ rd name ns, (pod_logs rd name ns).isOk = true) ∧
    (∀ e name ns, pod_logs (fun _ _ => .otherError e) name ns =
        .ok ("Unexpected error: " ++ e) ∧
      beginsWith "Error" ("Unexpected error: " ++ e) = false) ∧
    (∀ body estr name ns, pod_logs (fun _ _ => .apiError 404 body estr) name ns =
        .ok ("No pod found with the name '" ++ name ++ "' in the namespace '" ++ ns ++ "'.") ∧
      beginsWith "Error" ("No pod found with the name '" ++ name ++ "' in the namespace '" ++
        ns ++ "'.") = false) ∧
    (∀ ratio df e names ns,
      (delete_pod ratio df (fun _ => .error e) names ns).response = "Error: " ++ e ∧
      beginsWith "Error" ("Error: " ++ e) = true) ∧
    (∀ lp ld ns, (analyze_namespace lp ld ns).isOk = true) ∧
    (∀ e ld ns, analyze_namespace (fun _ => .error e) ld ns =
        .ok ("Error analyzing namespace: " ++ e) ∧
      beginsWith "Error" ("Error analyzing namespace: " ++ e) = true) ∧
    (∀ createFail freshName e names ns,
      create_pod createFail freshName (fun _ => .error e) names ns = Except.error e) := by
  refine ⟨?_, ?_, ?_, ?_, ?_, ?_, ?_, ?_, ?_, ?_, ?_, ?_, ?_, ?_, ?_⟩
  · intro lp ns
    cases h : lp ns with
    | error e => simp [list_pods, h, Except.isOk, Except.toBool]
    | ok pods =>
      by_cases hp : pods = [] <;> simp [list_pods, h, hp, Except.isOk, Except.toBool]
  · intro e ns
    exact ⟨rfl, rfl⟩
  · intro lns
    cases h : lns () with
    | error e => simp [list_namespaces, h, Except.isOk, Except.toBool]
    | ok namespaces => simp [list_namespaces, h, Except.isOk, Except.toBool]
  · intro e
    rfl
  · intro ls ns
    cases h : ls ns with
    | error e => simp [list_services, h, Except.isOk, Except.toBool]
    | ok services =>
      by_cases hp : services = [] <;> simp [list_services, h, hp, Except.isOk, Except.toBool]
  · intro e ns
    rfl
  · intro ld ns
    cases h : ld ns with
    | error e => simp [list_deployments, h, Except.isOk, Except.toBool]
    | ok deployments =>
      by_cases hp : deployments = [] <;> simp [list_deployments, h, hp, Except.isOk, Except.toBool]
  · intro e ns
    rfl
  · intro rd name ns
    cases h : rd name ns with
    | logs t =>
      by_cases h1 : t = "" <;> by_cases h2 : pyIn "Error" t <;>
        simp [pod_logs, h, h1, h2, Except.isOk, Except.toBool]
    | apiError st body estr =>
      by_cases h1 : st = 400 ∧ pyIn "Bad Request" body <;> by_cases h2 : st = 404 <;>
        simp [pod_logs, h, h1, h2, Except.isOk, Except.toBool]
    | otherError e => simp [pod_logs, h, Except.isOk, Except.toBool]
  · intro e name ns
    exact ⟨rfl, rfl⟩
  · intro body estr name ns
    refine ⟨?_, rfl⟩
    simp [pod_logs]
  · intro ratio df e names ns
    exact ⟨rfl, rfl⟩
  · intro lp ld ns
    cases h : lp ns with
    | error e => simp [analyze_namespace, h, Except.isOk, Except.toBool]
    | ok pods =>
      cases h2 : ld ns with
      | error e => simp [analyze_namespace, h, h2, Except.isOk, Except.toBool]
      | ok deployments => simp [analyze_namespace, h, h2, Except.isOk, Except.toBool]
  · intro e ld ns
    exact ⟨rfl, rfl⟩
  · intro createFail freshName e names ns
    rfl

/-- Witness for the amended C7 at concrete inputs. -/
theorem handlers_error_strings_witness :
    list_pods (fun _ => .error "down") "default" = .ok "Error: down" ∧
    pod_logs (fun _ _ => .otherError "oops") "p" "default" = .ok "Unexpected error: oops" ∧
    create_pod (fun _ => none) "" (fun _ => .error "down") "a" "default" =
      Except.error "down" := by
  obtain ⟨t1, t2, t3, t4, t5, t6, t7, t8, t9, t10, t11, t12, t13, t14, t15⟩ :=
    handlers_error_strings
  exact ⟨(t2 "down" "default").1, (t10 "oops" "p" "default").1, t15 _ "" "down" "a" "default"⟩

end Krs
